import Mathlib

/-!
Verification development for the Condotti dependency-injection module
(`src/bootstrap/src/condotti/di.js`).  The `DottiFactory` class is embedded
shallowly: JavaScript values are modelled by the inductive `JSValue`
(numbers as integers; `NaN` is not modelled), JavaScript objects used as
string-keyed maps (the instance cache `cache_` and the registry `config_`)
are modelled by association lists with JavaScript semantics (reading an
absent key yields `undefined`, assignment overwrites in place or appends),
and thrown exceptions are modelled with `Except`, the error carrying the
cache state left behind by the throwing call.

Two collaborators of `di.js` live elsewhere in the repository and are not
under `src/`: the topological-sort routine `C.algorithm.sorting.topology`
and the deep-merge utility `C.lang.merge`.  They are modelled from the
spec (see the doc comments of `topoVisit`, `fuelFor` and `mergeRegistry`).
Everything else is translated from the source of `di.js`.
-/

set_option autoImplicit false

namespace Dotti

/-- JavaScript values as needed by the factory: `undef` is `undefined`,
`num` models numbers as integers (`NaN` is out of scope), `date` is a
`Date` object holding its epoch time, and `obj name fields` is an object
whose prototype came from the constructor named `name` and whose own
fields (in assignment order) are `fields`. -/
inductive JSValue where
  | undef
  | null
  | bool (b : Bool)
  | num (n : Int)
  | str (s : String)
  | date (t : Int)
  | obj (protoName : String) (fields : List JSValue)

/-- JavaScript truthiness of a value, as used by `if (!x)` tests in the
source (`undefined`, `null`, `false`, `0` and the empty string are falsy;
every object is truthy). -/
def truthy : JSValue → Bool
  | .undef => false
  | .null => false
  | .bool b => b
  | .num n => n != 0
  | .str s => s != ""
  | .date _ => true
  | .obj _ _ => true

/-- Errors the factory can raise.  `missingConfig` is the `ReferenceError`
of `DottiFactory.prototype.get` (line 87), `typeError` the `TypeError` of
`create_` (line 193), `badDescriptor` the implicit `TypeError` of reading
`config.type` when `this.config_[name]` is `undefined`, `cycle` the
dependency-cycle error of the topological sort, `thrown v` an exception
value thrown by a managed constructor, and `fuel` the stack-depth bound of
the embedded traversal (unreachable with adequate fuel). -/
inductive DiError where
  | missingConfig (name : String)
  | cycle (name : String)
  | typeError (name : String)
  | badDescriptor (name : String)
  | thrown (v : JSValue)
  | fuel

/-- One constructor parameter descriptor from the config document, the
tagged variant of the spec: `{ reference: t }`, `{ type: "Date", value: s }`,
`{ value: v }`, or a falsy/absent entry. -/
inductive ParamSpec where
  | absent
  | reference (target : String)
  | dateLit (text : String)
  | plain (value : JSValue)

/-- One object descriptor of the config document:
`{ type: <dotted path>, params: { "<slot>": <ParamSpec> } }`.  The params
map is an association list in the iteration order of its keys. -/
structure Descriptor where
  type : String
  params : List (String × ParamSpec)

/-- The registry `config_`: object name to descriptor. -/
abbrev Registry := List (String × Descriptor)

/-- The instance cache `cache_`: object name to cached value. -/
abbrev Cache := List (String × JSValue)

/-- A constructible type as seen through `C.namespace`: its prototype
identity and its constructor body.  Applied to the positional argument
list, the body yields the own fields it assigned to `this` together with
an optional thrown exception value (`none` means normal return). -/
structure ConstructorFn where
  protoName : String
  body : List JSValue → List JSValue × Option JSValue

/-- The result of resolving a dotted type path with `C.namespace`: either
a function (constructible) or some other value, which fails the
`C.lang.reflect.isFunction` check in `create_`. -/
inductive ResolvedType where
  | fn (c : ConstructorFn)
  | value (v : JSValue)

/-- The external collaborators consumed by the factory: the type resolver
`C.namespace` and the `Date.parse` text-to-epoch conversion. -/
structure Env where
  resolveType : String → ResolvedType
  dateParse : String → Int

/-- The state of one `DottiFactory`: its registry and its instance cache. -/
structure DottiFactory where
  config_ : Registry
  cache_ : Cache

/-- Association-list lookup, first binding wins (JavaScript objects have
distinct keys, so at most one binding exists per key). -/
def assocGet {α : Type} : List (String × α) → String → Option α
  | [], _ => none
  | (k, v) :: t, key => if k = key then some v else assocGet t key

/-- Association-list assignment with JavaScript object semantics:
overwrite an existing key in place, append a new one. -/
def assocSet {α : Type} : List (String × α) → String → α → List (String × α)
  | [], key, v => [(key, v)]
  | (k, w) :: t, key, v =>
      if k = key then (key, v) :: t else (k, w) :: assocSet t key v

/-- Reading `this.cache_[name]`: the stored value, or `undefined` when the
name is absent. -/
def cacheGet (c : Cache) (name : String) : JSValue :=
  Option.getD (assocGet c name) JSValue.undef

/-- Writing `this.cache_[name] = v`. -/
def cacheSet (c : Cache) (name : String) (v : JSValue) : Cache :=
  assocSet c name v

/-- Whether a name has an entry in the cache at all (it may be bound to a
falsy value, which `cacheGet` cannot distinguish from absence). -/
def cacheHasKey (c : Cache) (name : String) : Bool :=
  (assocGet c name).isSome

/-- Reading `this.config_[name]`. -/
def configGet (reg : Registry) (name : String) : Option Descriptor :=
  assocGet reg name

/-- JavaScript `parseInt` restricted to the config slot keys: the longest
leading run of decimal digits, `none` (`NaN`) when there is none. -/
def jsParseInt (s : String) : Option Nat :=
  let digits := s.toList.takeWhile Char.isDigit
  if digits.isEmpty then none
  else some (digits.foldl (fun a c => a * 10 + (c.toNat - 48)) 0)

/-- Lexicographic strict comparison of character lists, the order the
default `sort()` comparator induces (code-unit order; the slot keys in
play are ASCII, where code units and code points agree). -/
def jsStrLtB : List Char → List Char → Bool
  | [], [] => false
  | [], _ :: _ => true
  | _ :: _, [] => false
  | a :: as, b :: bs => if a < b then true else if b < a then false else jsStrLtB as bs

/-- Non-strict string comparison used by the embedded sort. -/
def jsStrLe (a b : String) : Bool := !(jsStrLtB b.toList a.toList)

/-- Insertion step of the embedded string sort. -/
def insertStr (s : String) : List String → List String
  | [] => [s]
  | t :: ts => if jsStrLe s t then s :: t :: ts else t :: insertStr s ts

/-- The `Array.prototype.sort()` call of `create_` (line 164): sorts the
key strings in lexicographic (code-unit) order, the default comparator.
Modelled by insertion sort, which agrees with any correct comparison sort
on distinct keys. -/
def sortStrs : List String → List String
  | [] => []
  | s :: ss => insertStr s (sortStrs ss)

/-- The array assignment `params[i] = v` of `create_`: pads the array with
`undefined` holes up to index `i` if needed, then sets index `i`. -/
def setIdx : List JSValue → Nat → JSValue → List JSValue
  | [], 0, v => [v]
  | [], i + 1, v => .undef :: setIdx [] i v
  | _ :: t, 0, v => v :: t
  | h :: t, i + 1, v => h :: setIdx t i v

/-- Reading index `j` of the argument array (out-of-range reads give
`undefined`, as `Function.prototype.apply` presents holes). -/
def getIdx (arr : List JSValue) (j : Nat) : JSValue :=
  List.getD arr j JSValue.undef

/-- The parameter dispatch of `create_` (lines 169-179): a falsy entry
binds `undefined`; a `reference` binds the current cache value of the
target (silently `undefined` when absent); a `Date`-tagged entry binds a
`Date` built from `Date.parse`; otherwise a truthy `value` binds verbatim
and a falsy `value` falls through to `undefined`. -/
def resolveParam (env : Env) (cache : Cache) : ParamSpec → JSValue
  | .absent => .undef
  | .reference t => cacheGet cache t
  | .dateLit s => .date (env.dateParse s)
  | .plain v => if truthy v then v else JSValue.undef

/-- One iteration of the `forEach` of `create_` (lines 164-180): look the
key up in the params map, resolve it, and assign the result at array index
`parseInt(key)`.  A key with no leading digit parses to `NaN`;
`params[NaN]` is a plain property invisible to `apply`, so such a key
leaves the argument array unchanged. -/
def buildStep (env : Env) (cache : Cache) (params : List (String × ParamSpec))
    (arr : List JSValue) (key : String) : List JSValue :=
  match jsParseInt key with
  | none => arr
  | some i =>
      setIdx arr i (resolveParam env cache ((assocGet params key).getD .absent))

/-- The positional-argument construction of `create_` (lines 164-180):
iterate over the sorted key strings, assigning each resolved parameter at
its numeric index. -/
def buildParams (env : Env) (cache : Cache)
    (params : List (String × ParamSpec)) : List JSValue :=
  (sortStrs (params.map (·.1))).foldl (buildStep env cache params) []

/-- Distinctness of the numeric values of a key list, the sanity condition
of a positional params map (JavaScript object keys are distinct strings;
this additionally rules out aliases such as `"1"` and `"01"`). -/
abbrev distinctParses (ks : List String) : Prop :=
  ks.Pairwise (fun a b => jsParseInt a ≠ jsParseInt b)

/-- Whether a slot key is a numeral with value at least one (the 1-based
convention of the config documents). -/
def slotKeyOk (k : String) : Bool :=
  match jsParseInt k with
  | some n => decide (1 ≤ n)
  | none => false

/-- The array length contributed by one slot key: an assignment at index
`i` forces length at least `i + 1`. -/
def slotBound (a : Nat) (k : String) : Nat :=
  match jsParseInt k with
  | some i => max a (i + 1)
  | none => a

/-- The length of the positional argument array a params map produces:
one more than the largest numeric slot key (zero for no numeric key). -/
def maxSlot (params : List (String × ParamSpec)) : Nat :=
  (params.map (·.1)).foldl slotBound 0

/-- The reference targets of a descriptor, in parameter iteration order:
`Object.keys(params).filter(reference in).map(.reference)` from the `next`
callback of `get` (lines 93-98). -/
def refTargets (d : Descriptor) : List String :=
  d.params.filterMap (fun p =>
    match p.2 with
    | .reference t => some t
    | _ => none)

/-- The `next` callback built inside `get` (lines 78-99): an already
(truthy-)cached name contributes no dependencies; an unconfigured name
raises the missing-configuration `ReferenceError`; otherwise the raw
dependencies are the reference targets of the descriptor. -/
def nextOf (reg : Registry) (cache : Cache) (current : String) :
    Except DiError (List String) :=
  if truthy (cacheGet cache current) then .ok []
  else
    match configGet reg current with
    | none => .error (.missingConfig current)
    | some cfg => .ok (refTargets cfg)

/-- Modelled from the spec: the depth-first visit of
`C.algorithm.sorting.topology` (spec section 4.2), whose source is not
under `src/`.  A name already in the in-progress list signals a cycle; a
name already completed is skipped (dedup at first completion); otherwise
its raw dependencies are visited first and the name is appended after
them (post-order).  The fuel argument bounds recursion depth and stands
for the call stack; `fuelFor` always provides enough. -/
def topoVisit (next : String → Except DiError (List String)) :
    Nat → List String → List String → String → Except DiError (List String)
  | 0, _, _, _ => .error .fuel
  | Nat.succ fuel, visiting, done, n =>
    if n ∈ visiting then .error (.cycle n)
    else if n ∈ done then .ok done
    else
      next n >>= fun deps =>
      deps.foldlM (fun d dep => topoVisit next fuel (n :: visiting) d dep) done >>= fun d =>
      .ok (d ++ [n])

/-- Modelled from the spec: a recursion-depth budget for `topoVisit` that
exceeds the number of distinct names the traversal can ever hold
in-progress (every in-progress name beyond the root is a reference target
of some registry entry, and in-progress names are distinct). -/
def fuelFor (reg : Registry) : Nat :=
  2 + reg.length + (reg.map (fun e => (refTargets e.2).length)).sum

/-- `DottiFactory.prototype.create_` (lines 153-198): look the descriptor
up, resolve its type path, build the positional arguments, reject a
non-function type with a `TypeError` (the fatal log is observationally
silent here), then write the freshly created `Object.create(type.prototype)`
object into the cache and apply the constructor to it.  The cache write
happens before the constructor runs, so a throwing constructor leaves the
partially initialised object in the cache; the error carries that cache
state. -/
def create_ (env : Env) (reg : Registry) (cache : Cache) (name : String) :
    Except (DiError × Cache) Cache :=
  match configGet reg name with
  | none => .error (.badDescriptor name, cache)
  | some config =>
    let args := buildParams env cache config.params
    match env.resolveType config.type with
    | .value _ => .error (.typeError name, cache)
    | .fn ctor =>
      match ctor.body args with
      | (fields, none) => .ok (cacheSet cache name (.obj ctor.protoName fields))
      | (fields, some e) =>
          .error (.thrown e, cacheSet cache name (.obj ctor.protoName fields))

/-- `DottiFactory.prototype.get` (lines 72-111): a truthy cached value is
returned at once; otherwise the topological sort is run from the requested
name and every not-(truthy-)cached name of the resulting order is built in
sequence with `create_`, each build committing its cache write before the
next starts.  Any thrown error aborts the call, leaving the cache writes
already committed (carried in the error). -/
def get (env : Env) (f : DottiFactory) (name : String) :
    Except (DiError × Cache) (JSValue × Cache) :=
  if truthy (cacheGet f.cache_ name) then .ok (cacheGet f.cache_ name, f.cache_)
  else
    match topoVisit (nextOf f.config_ f.cache_) (fuelFor f.config_) [] [] name with
    | .error e => .error (e, f.cache_)
    | .ok deps =>
      match deps.foldlM
          (fun c d => if truthy (cacheGet c d) then .ok c else create_ env f.config_ c d)
          f.cache_ with
      | .error ec => .error ec
      | .ok c2 => .ok (cacheGet c2 name, c2)

/-- `DottiFactory.prototype.set` (lines 125-129): read the previous cache
value (`undefined` when absent), overwrite unconditionally, return the
previous value together with the new factory state. -/
def set (f : DottiFactory) (name : String) (object : JSValue) :
    JSValue × DottiFactory :=
  (cacheGet f.cache_ name, { f with cache_ := cacheSet f.cache_ name object })

/-- Modelled from the spec: the deep-merge utility `C.lang.merge`
(spec sections 4.1 and 6), whose source is not under `src/`.  Descriptors
colliding on a name are merged: the type path of the patch replaces the
existing one and the parameter maps are unioned with the patch winning
per slot (a `ParamSpec` is treated as one leaf).  Names only in the patch
are appended. -/
def mergeDescriptor (d p : Descriptor) : Descriptor :=
  { type := p.type,
    params := p.params.foldl (fun acc kv => assocSet acc kv.1 kv.2) d.params }

/-- Modelled from the spec: registry-level deep merge, see
`mergeDescriptor`. -/
def mergeRegistry (reg patch : Registry) : Registry :=
  patch.foldl
    (fun acc kv =>
      match assocGet acc kv.1 with
      | some d0 => assocSet acc kv.1 (mergeDescriptor d0 kv.2)
      | none => acc ++ [kv])
    reg

/-- `DottiFactory.prototype.configure` (lines 139-141): merge the patch
into the registry; the cache is untouched. -/
def configure (f : DottiFactory) (patch : Registry) : DottiFactory :=
  { f with config_ := mergeRegistry f.config_ patch }

/-- An environment with nothing resolvable, for concrete instances where
the type resolver is never consulted. -/
def envEmpty : Env :=
  { resolveType := fun _ => .value .undef, dateParse := fun _ => 0 }

/-! ### Association-list lemmas -/

theorem assocGet_assocSet_self {α : Type} :
    ∀ (l : List (String × α)) (k : String) (v : α),
      assocGet (assocSet l k v) k = some v
  | [], k, v => by simp [assocGet, assocSet]
  | (k0, w) :: t, k, v => by
      by_cases h : k0 = k
      · simp [assocGet, assocSet, h]
      · simp [assocGet, assocSet, h, assocGet_assocSet_self t k v]

theorem assocGet_assocSet_ne {α : Type} :
    ∀ (l : List (String × α)) (k k2 : String) (v : α), k ≠ k2 →
      assocGet (assocSet l k v) k2 = assocGet l k2
  | [], k, k2, v, h => by simp [assocGet, assocSet, h]
  | (k0, w) :: t, k, k2, v, h => by
      by_cases h0 : k0 = k
      · simp [assocGet, assocSet, h0, h]
      · simp only [assocSet, if_neg h0, assocGet]
        by_cases h2 : k0 = k2
        · simp [h2]
        · simp [h2, assocGet_assocSet_ne t k k2 v h]

theorem cacheGet_cacheSet_self (c : Cache) (k : String) (v : JSValue) :
    cacheGet (cacheSet c k v) k = v := by
  simp [cacheGet, cacheSet, assocGet_assocSet_self]

theorem assocGet_of_mem {α : Type} :
    ∀ (l : List (String × α)) (k : String) (v : α),
      (k, v) ∈ l → (l.map (·.1)).Nodup → assocGet l k = some v
  | [], k, v, h, _ => absurd h (List.not_mem_nil _)
  | (k0, w) :: t, k, v, h, hnd => by
      simp only [List.map_cons, List.nodup_cons] at hnd
      rcases List.mem_cons.mp h with heq | hmem
      · cases heq
        simp [assocGet]
      · have hne : k0 ≠ k := by
          intro hk
          subst hk
          exact hnd.1 (List.mem_map_of_mem (·.1) hmem)
        simp only [assocGet, if_neg hne]
        exact assocGet_of_mem t k v hmem hnd.2

theorem distinctParses_nodup {ks : List String} (h : distinctParses ks) :
    ks.Nodup := by
  refine h.imp ?_
  intro a b hne heq
  exact hne (by rw [heq])

/-! ### Sorting lemmas: the embedded sort is a permutation -/

theorem insertStr_perm (s : String) :
    ∀ l : List String, List.Perm (insertStr s l) (s :: l)
  | [] => List.Perm.refl _
  | t :: ts => by
      by_cases h : jsStrLe s t = true
      · simp only [insertStr, if_pos h]
        exact List.Perm.refl _
      · simp only [insertStr, if_neg h]
        exact ((insertStr_perm s ts).cons t).trans (List.Perm.swap s t ts)

theorem sortStrs_perm : ∀ l : List String, List.Perm (sortStrs l) l
  | [] => List.Perm.refl _
  | s :: ss => (insertStr_perm s (sortStrs ss)).trans ((sortStrs_perm ss).cons s)

theorem mem_sortStrs {k : String} {l : List String} (h : k ∈ l) :
    k ∈ sortStrs l :=
  (sortStrs_perm l).mem_iff.mpr h

theorem distinctParses_sortStrs {l : List String} (h : distinctParses l) :
    distinctParses (sortStrs l) :=
  ((sortStrs_perm l).pairwise_iff (fun hab hba => hab hba.symm)).mpr h

/-! ### Array-index lemmas -/

theorem length_setIdx :
    ∀ (arr : List JSValue) (i : Nat) (v : JSValue),
      (setIdx arr i v).length = max arr.length (i + 1)
  | [], 0, v => by simp [setIdx]
  | [], i + 1, v => by
      simp [setIdx, length_setIdx [] i v]
  | h :: t, 0, v => by
      simp only [setIdx, List.length_cons]
      omega
  | h :: t, i + 1, v => by
      simp only [setIdx, List.length_cons, length_setIdx t i v]
      omega

theorem getIdx_setIdx :
    ∀ (arr : List JSValue) (i : Nat) (v : JSValue) (j : Nat),
      getIdx (setIdx arr i v) j = if j = i then v else getIdx arr j
  | [], 0, v, 0 => by simp [setIdx, getIdx]
  | [], 0, v, j + 1 => by simp [setIdx, getIdx]
  | [], i + 1, v, 0 => by simp [setIdx, getIdx]
  | [], i + 1, v, j + 1 => by
      simp only [setIdx, getIdx, List.getD_cons_succ]
      have h := getIdx_setIdx [] i v j
      simp only [getIdx] at h
      rw [h]
      by_cases hj : j = i
      · simp [hj]
      · have hj1 : ¬ (j + 1 = i + 1) := by omega
        simp [hj, hj1]
  | h :: t, 0, v, 0 => by simp [setIdx, getIdx]
  | h :: t, 0, v, j + 1 => by simp [setIdx, getIdx]
  | h :: t, i + 1, v, 0 => by simp [setIdx, getIdx]
  | h :: t, i + 1, v, j + 1 => by
      simp only [setIdx, getIdx, List.getD_cons_succ]
      have hrec := getIdx_setIdx t i v j
      simp only [getIdx] at hrec
      rw [hrec]
      by_cases hj : j = i
      · simp [hj]
      · have hj1 : ¬ (j + 1 = i + 1) := by omega
        simp [hj, hj1]

theorem getIdx_nil (j : Nat) : getIdx [] j = .undef := by
  simp [getIdx]

/-! ### Characterisation of the positional argument array -/

theorem getIdx_buildFold_not_mem (env : Env) (cache : Cache)
    (params : List (String × ParamSpec)) :
    ∀ (ks : List String) (arr : List JSValue) (n : Nat),
      (∀ k ∈ ks, jsParseInt k ≠ some n) →
      getIdx (ks.foldl (buildStep env cache params) arr) n = getIdx arr n
  | [], arr, n, _ => rfl
  | k0 :: ks, arr, n, h => by
      have hrest : ∀ k ∈ ks, jsParseInt k ≠ some n := fun k hk =>
        h k (List.mem_cons_of_mem k0 hk)
      rw [List.foldl_cons,
          getIdx_buildFold_not_mem env cache params ks _ n hrest]
      unfold buildStep
      cases hp : jsParseInt k0 with
      | none => rfl
      | some i =>
          have hne : n ≠ i := by
            intro hni
            exact h k0 (List.mem_cons_self k0 ks) (by rw [hp, hni])
          rw [getIdx_setIdx, if_neg hne]

theorem getIdx_buildFold (env : Env) (cache : Cache)
    (params : List (String × ParamSpec)) :
    ∀ (ks : List String) (arr : List JSValue) (k : String) (n : Nat),
      distinctParses ks → k ∈ ks → jsParseInt k = some n →
      getIdx (ks.foldl (buildStep env cache params) arr) n =
        resolveParam env cache ((assocGet params k).getD .absent)
  | [], arr, k, n, _, hk, _ => absurd hk (List.not_mem_nil k)
  | k0 :: ks, arr, k, n, hdp, hk, hp => by
      have hpc := List.pairwise_cons.mp hdp
      rcases List.mem_cons.mp hk with rfl | hmem
      · rw [List.foldl_cons,
            getIdx_buildFold_not_mem env cache params ks _ n
              (fun b hb hpb => hpc.1 b hb (hp.trans hpb.symm))]
        unfold buildStep
        rw [hp, getIdx_setIdx, if_pos rfl]
      · rw [List.foldl_cons]
        exact getIdx_buildFold env cache params ks _ k n hpc.2 hmem hp

theorem getIdx_buildParams (env : Env) (cache : Cache)
    (params : List (String × ParamSpec)) (k : String) (p : ParamSpec) (n : Nat)
    (hdp : distinctParses (params.map (·.1)))
    (hmem : (k, p) ∈ params) (hp : jsParseInt k = some n) :
    getIdx (buildParams env cache params) n = resolveParam env cache p := by
  have hkmem : k ∈ params.map (·.1) := List.mem_map_of_mem (·.1) hmem
  have hlook : assocGet params k = some p :=
    assocGet_of_mem params k p hmem (distinctParses_nodup hdp)
  unfold buildParams
  rw [getIdx_buildFold env cache params _ [] k n (distinctParses_sortStrs hdp)
        (mem_sortStrs hkmem) hp, hlook]
  rfl

theorem getIdx_buildParams_gap (env : Env) (cache : Cache)
    (params : List (String × ParamSpec)) (j : Nat)
    (h : ∀ k ∈ params.map (·.1), jsParseInt k ≠ some j) :
    getIdx (buildParams env cache params) j = .undef := by
  unfold buildParams
  rw [getIdx_buildFold_not_mem env cache params _ [] j
        (fun k hk => h k ((sortStrs_perm _).mem_iff.mp hk))]
  exact getIdx_nil j

/-! ### Length of the positional argument array -/

theorem slotBound_comm (a : Nat) (x y : String) :
    slotBound (slotBound a x) y = slotBound (slotBound a y) x := by
  cases hx : jsParseInt x <;> cases hy : jsParseInt y <;>
    (simp [slotBound, hx, hy]; try omega)

theorem foldl_slotBound_perm {l1 l2 : List String} (p : List.Perm l1 l2) :
    ∀ a : Nat, l1.foldl slotBound a = l2.foldl slotBound a := by
  induction p with
  | nil => intro a; rfl
  | cons x _ ih => intro a; rw [List.foldl_cons, List.foldl_cons]; exact ih _
  | swap x y l => intro a; simp [List.foldl_cons, slotBound_comm]
  | trans _ _ ih1 ih2 => intro a; exact (ih1 a).trans (ih2 a)

theorem length_buildFold (env : Env) (cache : Cache)
    (params : List (String × ParamSpec)) :
    ∀ (ks : List String) (arr : List JSValue),
      (ks.foldl (buildStep env cache params) arr).length =
        ks.foldl slotBound arr.length
  | [], arr => rfl
  | k0 :: ks, arr => by
      rw [List.foldl_cons, List.foldl_cons,
          length_buildFold env cache params ks _]
      congr 1
      unfold buildStep slotBound
      cases hp : jsParseInt k0 with
      | none => rfl
      | some i => exact length_setIdx arr i _

theorem length_buildParams (env : Env) (cache : Cache)
    (params : List (String × ParamSpec)) :
    (buildParams env cache params).length = maxSlot params := by
  unfold buildParams maxSlot
  rw [length_buildFold env cache params]
  exact foldl_slotBound_perm (sortStrs_perm _) 0

/-! ### Stepping lemmas for the factory operations -/

theorem except_bind_error {ε α β : Type} (e : ε) (g : α → Except ε β) :
    (Except.error e >>= g) = Except.error e := rfl

theorem except_bind_ok {ε α β : Type} (a : α) (g : α → Except ε β) :
    (Except.ok a >>= g) = g a := rfl

theorem cacheGet_absent {c : Cache} {name : String}
    (h : cacheHasKey c name = false) : cacheGet c name = .undef := by
  unfold cacheHasKey at h
  unfold cacheGet
  cases hc : assocGet c name with
  | none => rfl
  | some v => rw [hc] at h; exact nomatch h

theorem topoVisit_cycle (next : String → Except DiError (List String))
    (fuel : Nat) (visiting done : List String) (n : String)
    (h : n ∈ visiting) :
    topoVisit next (fuel + 1) visiting done n = .error (.cycle n) := by
  simp [topoVisit, h]

theorem topoVisit_step (next : String → Except DiError (List String))
    (fuel : Nat) (visiting done : List String) (n : String)
    (h1 : n ∉ visiting) (h2 : n ∉ done) :
    topoVisit next (fuel + 1) visiting done n =
      (next n >>= fun deps =>
       deps.foldlM (fun d dep => topoVisit next fuel (n :: visiting) d dep) done >>= fun d =>
       .ok (d ++ [n])) := by
  simp [topoVisit, h1, h2]

theorem get_cached (env : Env) (f : DottiFactory) (name : String)
    (h : truthy (cacheGet f.cache_ name) = true) :
    get env f name = .ok (cacheGet f.cache_ name, f.cache_) := by
  unfold get
  rw [h]
  simp

theorem get_uncached (env : Env) (f : DottiFactory) (name : String)
    (h : truthy (cacheGet f.cache_ name) = false) :
    get env f name =
      match topoVisit (nextOf f.config_ f.cache_) (fuelFor f.config_) [] [] name with
      | .error e => .error (e, f.cache_)
      | .ok deps =>
        match deps.foldlM
            (fun c d => if truthy (cacheGet c d) then .ok c else create_ env f.config_ c d)
            f.cache_ with
        | .error ec => .error ec
        | .ok c2 => .ok (cacheGet c2 name, c2) := by
  unfold get
  rw [h]
  simp

theorem config_nonempty {reg : Registry} {name : String} {d : Descriptor}
    (h : configGet reg name = some d) : 1 ≤ reg.length := by
  cases hr : reg with
  | nil => rw [hr] at h; exact nomatch h
  | cons hd tl => simp

theorem fuelFor_ge_two (reg : Registry) : 2 ≤ fuelFor reg := by
  unfold fuelFor
  omega

theorem fuelFor_ge_three {reg : Registry} {name : String} {d : Descriptor}
    (h : configGet reg name = some d) : 3 ≤ fuelFor reg := by
  have := config_nonempty h
  unfold fuelFor
  omega

/-! ### Concrete fixtures used by witnesses and counterexamples -/

/-- An empty factory: no registry entries, no cached instances. -/
def f0 : DottiFactory := { config_ := [], cache_ := [] }

/-- The spec example of a positional params map with slot keys
`"2"`, `"10"`, `"1"` in that insertion order. -/
def wC1 : List (String × ParamSpec) :=
  [("2", .plain (.str "b")), ("10", .plain (.str "j")), ("1", .plain (.str "a"))]

/-- A 1-based params map with a gap: slots `"1"` and `"3"`, slot 2 absent. -/
def wC10 : List (String × ParamSpec) :=
  [("1", .plain (.num 7)), ("3", .plain (.num 9))]

/-- A constructor that throws before assigning any field. -/
def ctorThrow : ConstructorFn :=
  { protoName := "T", body := fun _ => ([], some (.str "boom")) }

/-- An environment resolving every type path to `ctorThrow`. -/
def envThrow : Env :=
  { resolveType := fun _ => .fn ctorThrow, dateParse := fun _ => 0 }

/-- A descriptor with no parameters. -/
def dPlainA : Descriptor := { type := "pkg.T", params := [] }

/-- A registry holding only the descriptor of `"A"`. -/
def regA : Registry := [("A", dPlainA)]

/-- A constructor that records its argument list as the object fields and
returns normally. -/
def ctorRecord : ConstructorFn :=
  { protoName := "T9", body := fun args => (args, none) }

/-- An environment resolving every type path to `ctorRecord`. -/
def envRecord : Env :=
  { resolveType := fun _ => .fn ctorRecord, dateParse := fun _ => 0 }

/-- A descriptor whose only parameter references the unconfigured,
uncached name `"missing"`. -/
def dRef : Descriptor :=
  { type := "pkg.T9", params := [("1", .reference "missing")] }

/-- A registry holding only the descriptor of `"A"`, which references
`"missing"`. -/
def regRef : Registry := [("A", dRef)]

/-! ### Claim theorems -/

/-- C1: for every descriptor whose parameter slot keys are numerals with
pairwise distinct numeric values, the positional argument list built by
`create_` places each slot's resolved value at the argument index equal to
the slot key's numeric value.  Hence the slots keyed `"2"`, `"10"`, `"1"`
bind at indices 2, 10 and 1 — numeric order, with each slot's value
preceding the values of all numerically larger slot keys — even though the
source sorts the key strings lexicographically: the lexicographic sort
only fixes the order of the array assignments, and each assignment targets
the numeric index `parseInt(key)` independently of that order. -/
theorem C1_positional_slots_bind_numerically (env : Env) (cache : Cache)
    (params : List (String × ParamSpec))
    (hdp : distinctParses (params.map (·.1)))
    (k : String) (p : ParamSpec) (n : Nat)
    (hmem : (k, p) ∈ params) (hp : jsParseInt k = some n) :
    getIdx (buildParams env cache params) n = resolveParam env cache p :=
  getIdx_buildParams env cache params k p n hdp hmem hp

/-- Witness for C1 at the spec's own example: slots `"2"`, `"10"`, `"1"`
(inserted in that order) land at indices 2, 10 and 1. -/
theorem C1_witness :
    getIdx (buildParams envEmpty [] wC1) 10 = .str "j" ∧
    getIdx (buildParams envEmpty [] wC1) 2 = .str "b" ∧
    getIdx (buildParams envEmpty [] wC1) 1 = .str "a" :=
  ⟨(C1_positional_slots_bind_numerically envEmpty [] wC1 (by decide)
      "10" (.plain (.str "j")) 10 (List.Mem.tail _ (List.Mem.head _)) (by decide)).trans rfl,
   (C1_positional_slots_bind_numerically envEmpty [] wC1 (by decide)
      "2" (.plain (.str "b")) 2 (List.Mem.head _) (by decide)).trans rfl,
   (C1_positional_slots_bind_numerically envEmpty [] wC1 (by decide)
      "1" (.plain (.str "a")) 1
      (List.Mem.tail _ (List.Mem.tail _ (List.Mem.head _))) (by decide)).trans rfl⟩

/-- C10: for a descriptor whose slot keys are numerals with distinct
values, all at least 1, the constructor receives an argument array of
length one more than the largest slot key (`maxSlot`; for keys
`"1"`..`"n"` this is `n + 1`): slot key `k` binds at argument position `k`
(not `k - 1`), position 0 is always the `undefined` placeholder, and every
position not named by a slot key — a gap between non-contiguous keys — is
`undefined` as well.  `create_` passes exactly this array to
`type.apply`. -/
theorem C10_one_based_positional_layout (env : Env) (cache : Cache)
    (params : List (String × ParamSpec))
    (hdp : distinctParses (params.map (·.1)))
    (hok : ∀ k ∈ params.map (·.1), slotKeyOk k = true) :
    (buildParams env cache params).length = maxSlot params ∧
    getIdx (buildParams env cache params) 0 = .undef ∧
    (∀ k p n, (k, p) ∈ params → jsParseInt k = some n →
      getIdx (buildParams env cache params) n = resolveParam env cache p) ∧
    (∀ j, (∀ k ∈ params.map (·.1), jsParseInt k ≠ some j) →
      getIdx (buildParams env cache params) j = .undef) := by
  refine ⟨length_buildParams env cache params, ?_, ?_, ?_⟩
  · apply getIdx_buildParams_gap
    intro k hk hpk
    have hok2 := hok k hk
    unfold slotKeyOk at hok2
    rw [hpk] at hok2
    exact absurd hok2 (by decide)
  · intro k p n hm hp
    exact getIdx_buildParams env cache params k p n hdp hm hp
  · intro j hj
    exact getIdx_buildParams_gap env cache params j hj

/-- Witness for C10 at slots `"1"` and `"3"`: four positional arguments,
position 0 and the gap position 2 are `undefined`, slots 1 and 3 bind at
positions 1 and 3. -/
theorem C10_witness :
    (buildParams envEmpty [] wC10).length = 4 ∧
    getIdx (buildParams envEmpty [] wC10) 0 = .undef ∧
    getIdx (buildParams envEmpty [] wC10) 1 = .num 7 ∧
    getIdx (buildParams envEmpty [] wC10) 2 = .undef ∧
    getIdx (buildParams envEmpty [] wC10) 3 = .num 9 := by
  have h := C10_one_based_positional_layout envEmpty [] wC10 (by decide) (by decide)
  exact ⟨h.1.trans rfl, h.2.1,
    (h.2.2.1 "1" (.plain (.num 7)) 1 (List.Mem.head _) (by decide)).trans rfl,
    h.2.2.2 2 (by decide),
    (h.2.2.1 "3" (.plain (.num 9)) 3 (List.Mem.tail _ (List.Mem.head _)) (by decide)).trans rfl⟩

/-- C3 counterexample: the plain-value ParamSpec `{ value: 0 }` does not
bind the literal `0` — the `param.value` truthiness test of `create_`
(line 175) rejects it and the slot falls through to `undefined`.  The same
happens for `false` and the empty string. -/
theorem C3_counterexample :
    resolveParam envEmpty [] (.plain (.num 0)) = .undef ∧
    resolveParam envEmpty [] (.plain (.bool false)) = .undef ∧
    resolveParam envEmpty [] (.plain (.str "")) = .undef ∧
    JSValue.undef ≠ JSValue.num 0 :=
  ⟨rfl, rfl, rfl, fun h => nomatch h⟩

/-- C3 (amended): a plain-value ParamSpec `{ value: v }` binds the literal
`v` unchanged provided `v` is truthy; a falsy literal (`0`, `false`, the
empty string) is bound as the `undefined` placeholder instead, because the
dispatch of `create_` tests `param.value` for truthiness. -/
theorem C3_plain_truthy_value_verbatim (env : Env) (cache : Cache)
    (v : JSValue) (h : truthy v = true) :
    resolveParam env cache (.plain v) = v := by
  simp [resolveParam, h]

/-- Witness for C3 at the truthy literal `"s"`. -/
theorem C3_witness :
    truthy (.str "s") = true ∧
    resolveParam envEmpty [] (.plain (.str "s")) = .str "s" :=
  ⟨rfl, C3_plain_truthy_value_verbatim envEmpty [] (.str "s") rfl⟩

/-- C9 counterexample: building `"A"`, whose only parameter references the
name `"missing"` that is absent from the cache, does not fail — `create_`
silently binds `undefined` for the reference (line 172 reads
`self.cache_[param.reference]` without any check) and the constructor runs
with `[undefined, undefined]`, succeeding.  The claim that such a
resolution fails and the failure is propagated is false. -/
theorem C9_counterexample :
    cacheHasKey [] "missing" = false ∧
    create_ envRecord regRef [] "A" =
      .ok [("A", .obj "T9" [.undef, .undef])] ∧
    (∀ e c, create_ envRecord regRef [] "A" ≠ Except.error (e, c)) :=
  ⟨rfl, rfl, fun _ _ h => nomatch h⟩

/-- C9 (amended): during construction, a Reference parameter whose target
name is absent from the cache is silently bound to `undefined` — the
lookup `self.cache_[param.reference]` yields `undefined` and no check or
failure follows — and `create_` proceeds to invoke the constructor
normally, succeeding whenever the constructor itself returns. -/
theorem C9_absent_reference_binds_undefined (env : Env) (reg : Registry)
    (cache : Cache) (name : String) (d : Descriptor) (c : ConstructorFn)
    (hd : configGet reg name = some d)
    (hres : env.resolveType d.type = .fn c)
    (hnothrow : (c.body (buildParams env cache d.params)).2 = none) :
    (∀ t, cacheHasKey cache t = false →
      resolveParam env cache (.reference t) = .undef) ∧
    create_ env reg cache name =
      .ok (cacheSet cache name
            (.obj c.protoName (c.body (buildParams env cache d.params)).1)) := by
  constructor
  · intro t ht
    unfold resolveParam
    exact cacheGet_absent ht
  · rcases hb : c.body (buildParams env cache d.params) with ⟨flds, o⟩
    rw [hb] at hnothrow
    simp only at hnothrow
    subst hnothrow
    simp only [create_, hd, hres, hb]

/-- Witness for C9 at the `regRef` fixture: `"missing"` is uncached, its
reference binds `undefined`, and the build of `"A"` succeeds. -/
theorem C9_witness :
    resolveParam envRecord [] (.reference "missing") = .undef ∧
    create_ envRecord regRef [] "A" =
      .ok [("A", .obj "T9" [.undef, .undef])] := by
  have h := C9_absent_reference_binds_undefined envRecord regRef [] "A"
    dRef ctorRecord rfl rfl rfl
  exact ⟨h.1 "missing" rfl, h.2.trans rfl⟩

/-- C2 counterexample: the constructor of `"A"` throws, yet afterwards the
cache holds an entry for `"A"` — the freshly created, uninitialised
object written at line 196 before the constructor ran at line 197.  The
claim that on a throwing constructor no cache write occurs and the name
remains absent is false. -/
theorem C2_counterexample :
    create_ envThrow regA [] "A" =
      .error (.thrown (.str "boom"), [("A", .obj "T" [])]) ∧
    cacheHasKey [("A", JSValue.obj "T" [])] "A" = true :=
  ⟨rfl, rfl⟩

/-- C2 (amended): building one object performs exactly one cache write.
Failures of type resolution and of the constructibility check happen
before that write, so they leave the cache unchanged and the name absent;
parameter binding cannot fail.  But the write happens before the
constructor is invoked, so a constructor that throws leaves the name
present in the cache, bound to the (partially initialised) instance. -/
theorem C2_single_cache_write_before_constructor (env : Env) (reg : Registry)
    (cache : Cache) (name : String) (d : Descriptor)
    (hd : configGet reg name = some d) :
    (∀ v, env.resolveType d.type = .value v →
      create_ env reg cache name = .error (.typeError name, cache)) ∧
    (∀ c fields, env.resolveType d.type = .fn c →
      c.body (buildParams env cache d.params) = (fields, none) →
      create_ env reg cache name =
        .ok (cacheSet cache name (.obj c.protoName fields))) ∧
    (∀ c fields e, env.resolveType d.type = .fn c →
      c.body (buildParams env cache d.params) = (fields, some e) →
      create_ env reg cache name =
        .error (.thrown e, cacheSet cache name (.obj c.protoName fields)) ∧
      truthy (cacheGet (cacheSet cache name (.obj c.protoName fields)) name) = true) := by
  refine ⟨?_, ?_, ?_⟩
  · intro v hres
    simp only [create_, hd, hres]
  · intro c fields hres hb
    simp only [create_, hd, hres, hb]
  · intro c fields e hres hb
    constructor
    · simp only [create_, hd, hres, hb]
    · rw [cacheGet_cacheSet_self]
      rfl

/-- Witness for C2 at the `envThrow` fixture: the throwing constructor
leaves `"A"` truthy-present in the cache. -/
theorem C2_witness :
    create_ envThrow regA [] "A" =
      .error (.thrown (.str "boom"), cacheSet [] "A" (.obj "T" [])) ∧
    truthy (cacheGet (cacheSet [] "A" (.obj "T" [])) "A") = true :=
  (C2_single_cache_write_before_constructor envThrow regA [] "A" dPlainA
    rfl).2.2 ctorThrow [] (.str "boom") rfl rfl

/-- C6: `configure` only merges the patch into the registry and leaves
the instance cache untouched — for every name, the cached value after
`configure` is the one before, even when the patch changes that name's
descriptor (the registry really does change, per the second conjunct). -/
theorem C6_configure_preserves_cache (f : DottiFactory) (patch : Registry) :
    (configure f patch).cache_ = f.cache_ ∧
    (∀ name, cacheGet (configure f patch).cache_ name = cacheGet f.cache_ name) ∧
    (configure f patch).config_ = mergeRegistry f.config_ patch :=
  ⟨rfl, fun _ => rfl, rfl⟩

/-- C7 counterexample: `set("X", 1)` then `set("X", 0)` returns `1`, but
the subsequent `get("X")` does not return the stored `0` — the truthy test
`!this.cache_[name]` treats the falsy cached `0` as absent, so `get`
consults the configuration and, with no descriptor, throws the
missing-configuration error instead of returning `0`. -/
theorem C7_counterexample :
    (set (set f0 "X" (.num 1)).2 "X" (.num 0)).1 = .num 1 ∧
    get envEmpty (set (set f0 "X" (.num 1)).2 "X" (.num 0)).2 "X" =
      .error (.missingConfig "X", [("X", .num 0)]) ∧
    get envEmpty (set (set f0 "X" (.num 1)).2 "X" (.num 0)).2 "X" ≠
      .ok (.num 0, [("X", .num 0)]) :=
  ⟨rfl, rfl, fun h => nomatch h⟩

/-- C7 (amended): `set(name, instance)` overwrites the cache entry
unconditionally and returns the previously stored value (`undefined` when
none was stored): after `set("X", obj1)` then `set("X", obj2)` the second
call returns `obj1`, and a subsequent `get("X")` returns `obj2` provided
`obj2` is truthy — a falsy `obj2` is treated by `get` as absent and
triggers resolution instead. -/
theorem C7_set_overwrites_returns_previous (env : Env) (f : DottiFactory)
    (X : String) (o1 o2 : JSValue) :
    (set f X o1).1 = cacheGet f.cache_ X ∧
    (set (set f X o1).2 X o2).1 = o1 ∧
    (truthy o2 = true →
      get env (set (set f X o1).2 X o2).2 X =
        .ok (o2, (set (set f X o1).2 X o2).2.cache_)) := by
  refine ⟨rfl, cacheGet_cacheSet_self f.cache_ X o1, ?_⟩
  intro h
  have hc : cacheGet (set (set f X o1).2 X o2).2.cache_ X = o2 :=
    cacheGet_cacheSet_self (cacheSet f.cache_ X o1) X o2
  rw [get_cached env _ X (by rw [hc]; exact h), hc]

/-- Witness for C7: overwriting the cached `1` with an object returns the
`1` and `get` then yields the object. -/
theorem C7_witness :
    (set (set f0 "X" (.num 1)).2 "X" (.obj "O" [])).1 = .num 1 ∧
    get envEmpty (set (set f0 "X" (.num 1)).2 "X" (.obj "O" [])).2 "X" =
      .ok (.obj "O" [], [("X", .obj "O" [])]) := by
  have h := C7_set_overwrites_returns_previous envEmpty f0 "X" (.num 1) (.obj "O" [])
  exact ⟨h.2.1, h.2.2 rfl⟩

/-- C8 counterexample: after `set("X", false)` with no descriptor for
`"X"`, `get("X")` does not return the stored `false` — the falsy cached
value fails the `!this.cache_[name]` test, `get` consults the
configuration and throws the missing-configuration error. -/
theorem C8_counterexample :
    get envEmpty (set f0 "X" (.bool false)).2 "X" =
      .error (.missingConfig "X", [("X", .bool false)]) ∧
    get envEmpty (set f0 "X" (.bool false)).2 "X" ≠
      .ok (.bool false, [("X", .bool false)]) :=
  ⟨rfl, fun h => nomatch h⟩

/-- C8 (amended): after `set(X, obj)` with a truthy `obj`, `get(X)`
returns `obj` immediately from the cache without consulting the
configuration — the registry is arbitrary here and may well lack any
descriptor for `X` — and without any resolution work or error.  For a
falsy `obj` the cached value is treated as absent and `get` resolves
instead. -/
theorem C8_set_then_get_returns_instance (env : Env) (f : DottiFactory)
    (X : String) (obj : JSValue) (h : truthy obj = true) :
    get env (set f X obj).2 X = .ok (obj, (set f X obj).2.cache_) := by
  have hc : cacheGet (set f X obj).2.cache_ X = obj :=
    cacheGet_cacheSet_self f.cache_ X obj
  rw [get_cached env _ X (by rw [hc]; exact h), hc]

/-- Witness for C8: the factory has no descriptor at all for `"X"`, yet
`get` returns the injected object. -/
theorem C8_witness :
    get envEmpty (set f0 "X" (.obj "O" [])).2 "X" =
      .ok (.obj "O" [], [("X", .obj "O" [])]) :=
  C8_set_then_get_returns_instance envEmpty f0 "X" (.obj "O" []) rfl

/-- C4: a name with no descriptor that is not (truthy-)cached makes `get`
fail with the missing-configuration error identifying that name, and the
error reaches the caller of `get` directly (the returned cache is the
original one — nothing was built or committed).  First conjunct: the
requested name itself.  Second conjunct: a transitively referenced name
`X` of a configured root `A`. -/
theorem C4_missing_configuration_error (env : Env) :
    (∀ (f : DottiFactory) (name : String),
      truthy (cacheGet f.cache_ name) = false →
      configGet f.config_ name = none →
      get env f name = .error (.missingConfig name, f.cache_)) ∧
    (∀ (f : DottiFactory) (A X : String) (dA : Descriptor),
      configGet f.config_ A = some dA →
      refTargets dA = [X] →
      configGet f.config_ X = none →
      truthy (cacheGet f.cache_ A) = false →
      truthy (cacheGet f.cache_ X) = false →
      get env f A = .error (.missingConfig X, f.cache_)) := by
  constructor
  · intro f name hc hcfg
    obtain ⟨m, hm⟩ : ∃ m, fuelFor f.config_ = m + 1 :=
      ⟨fuelFor f.config_ - 1, by have := fuelFor_ge_two f.config_; omega⟩
    have hnx : nextOf f.config_ f.cache_ name = .error (.missingConfig name) := by
      simp [nextOf, hc, hcfg]
    have htopo : topoVisit (nextOf f.config_ f.cache_) (fuelFor f.config_) [] [] name =
        .error (.missingConfig name) := by
      rw [hm, topoVisit_step _ m [] [] name (List.not_mem_nil name)
            (List.not_mem_nil name), hnx, except_bind_error]
    rw [get_uncached env f name hc, htopo]
  · intro f A X dA hA hrA hX hcA hcX
    have hAX : A ≠ X := by
      intro he
      rw [he, hX] at hA
      exact nomatch hA
    obtain ⟨m, hm⟩ : ∃ m, fuelFor f.config_ = m + 2 :=
      ⟨fuelFor f.config_ - 2, by have := fuelFor_ge_two f.config_; omega⟩
    have hnxA : nextOf f.config_ f.cache_ A = .ok [X] := by
      simp [nextOf, hcA, hA, hrA]
    have hnxX : nextOf f.config_ f.cache_ X = .error (.missingConfig X) := by
      simp [nextOf, hcX, hX]
    have hXA : X ∉ [A] := by
      simp only [List.mem_singleton]
      exact Ne.symm hAX
    have hvX : topoVisit (nextOf f.config_ f.cache_) (m + 1) [A] [] X =
        .error (.missingConfig X) := by
      rw [topoVisit_step _ m [A] [] X hXA (List.not_mem_nil X), hnxX,
          except_bind_error]
    have htopo : topoVisit (nextOf f.config_ f.cache_) (fuelFor f.config_) [] [] A =
        .error (.missingConfig X) := by
      rw [hm, topoVisit_step _ (m + 1) [] [] A (List.not_mem_nil A)
            (List.not_mem_nil A), hnxA, except_bind_ok]
      simp only [List.foldlM_cons, List.foldlM_nil]
      rw [hvX, except_bind_error, except_bind_error]
    rw [get_uncached env f A hcA, htopo]

/-- A descriptor referencing the unconfigured name `"X"`. -/
def dChain : Descriptor := { type := "tA", params := [("1", .reference "X")] }

/-- A registry where `"A"` references the unconfigured `"X"`. -/
def regChain : Registry := [("A", dChain)]

/-- Witness for C4: an empty factory fails on `"Z"` naming `"Z"`, and a
factory whose `"A"` references the unconfigured `"X"` fails on `get("A")`
naming `"X"`. -/
theorem C4_witness :
    get envEmpty f0 "Z" = .error (.missingConfig "Z", []) ∧
    get envEmpty { config_ := regChain, cache_ := [] } "A" =
      .error (.missingConfig "X", []) := by
  have h := C4_missing_configuration_error envEmpty
  exact ⟨h.1 f0 "Z" rfl rfl, h.2 _ "A" "X" dChain rfl rfl rfl rfl rfl⟩

/-- C5: for a two-name cycle — `A` references `B`, `B` references `A`,
neither (truthy-)cached — `get("A")` fails with the dependency-cycle error
and the cache is returned unchanged: neither `A` nor `B` (nor anything
else) is added to it, because the traversal throws before any `create_`
call runs. -/
theorem C5_cycle_error_no_cache_write (env : Env) (f : DottiFactory)
    (A B : String) (dA dB : Descriptor)
    (hAB : A ≠ B)
    (hA : configGet f.config_ A = some dA)
    (hB : configGet f.config_ B = some dB)
    (hrA : refTargets dA = [B])
    (hrB : refTargets dB = [A])
    (hcA : truthy (cacheGet f.cache_ A) = false)
    (hcB : truthy (cacheGet f.cache_ B) = false) :
    get env f A = .error (.cycle A, f.cache_) := by
  obtain ⟨m, hm⟩ : ∃ m, fuelFor f.config_ = m + 3 :=
    ⟨fuelFor f.config_ - 3, by have := fuelFor_ge_three hA; omega⟩
  have hnxA : nextOf f.config_ f.cache_ A = .ok [B] := by
    simp [nextOf, hcA, hA, hrA]
  have hnxB : nextOf f.config_ f.cache_ B = .ok [A] := by
    simp [nextOf, hcB, hB, hrB]
  have hBA : B ∉ [A] := by
    simp only [List.mem_singleton]
    exact Ne.symm hAB
  have hv2 : topoVisit (nextOf f.config_ f.cache_) (m + 1) [B, A] [] A =
      .error (.cycle A) :=
    topoVisit_cycle _ m [B, A] [] A
      (List.mem_cons_of_mem B (List.mem_cons_self A []))
  have hvB : topoVisit (nextOf f.config_ f.cache_) (m + 2) [A] [] B =
      .error (.cycle A) := by
    rw [topoVisit_step _ (m + 1) [A] [] B hBA (List.not_mem_nil B), hnxB,
        except_bind_ok]
    simp only [List.foldlM_cons, List.foldlM_nil]
    rw [hv2, except_bind_error, except_bind_error]
  have htopo : topoVisit (nextOf f.config_ f.cache_) (fuelFor f.config_) [] [] A =
      .error (.cycle A) := by
    rw [hm, topoVisit_step _ (m + 2) [] [] A (List.not_mem_nil A)
          (List.not_mem_nil A), hnxA, except_bind_ok]
    simp only [List.foldlM_cons, List.foldlM_nil]
    rw [hvB, except_bind_error, except_bind_error]
  rw [get_uncached env f A hcA, htopo]

/-- The descriptor of `"A"` in the cyclic fixture. -/
def dCycA : Descriptor := { type := "tA", params := [("1", .reference "B")] }

/-- The descriptor of `"B"` in the cyclic fixture. -/
def dCycB : Descriptor := { type := "tB", params := [("1", .reference "A")] }

/-- The cyclic registry: `A` references `B` and `B` references `A`. -/
def regCyc : Registry := [("A", dCycA), ("B", dCycB)]

/-- Witness for C5 at the concrete two-node cycle: `get("A")` fails with
the cycle error and the empty cache comes back empty. -/
theorem C5_witness :
    get envEmpty { config_ := regCyc, cache_ := [] } "A" =
      .error (.cycle "A", []) :=
  C5_cycle_error_no_cache_write envEmpty _ "A" "B" dCycA dCycB
    (by decide) rfl rfl rfl rfl rfl rfl

end Dotti
